import Mathlib

/-!
Shallow embedding of the pricing cache-and-resolution subsystem of
eks-pricing-exporter (pkg/pricing/repository.go, pkg/pricing/aws_provider.go,
the static provider, and the node model in pkg/model).

Modelling conventions:
* Go float64 values are modelled as rationals; the one place where the code
  relies on IEEE NaN (the unknown-price sentinel, math.NaN with self-equality
  failing) is modelled explicitly by the GoFloat type below.
* Go maps are modelled as association lists where an assignment conses the new
  binding in front and lookup takes the first (most recent) binding.
* Network and JSON-decoding boundaries are modelled by passing the decoded
  records (or the sub-fetch results) as explicit arguments: the string result
  of strconv.ParseFloat is modelled as an Option rational (none = parse error).
* time.Now() is modelled by an explicit clock argument of type Nat.
-/

namespace EksPricing

/-- Go strings.Contains on character lists: true when the second list occurs
as a contiguous sublist of the first. -/
def containsSub : List Char → List Char → Bool
  | [], sub => sub.isEmpty
  | c :: rest, sub => sub.isPrefixOf (c :: rest) || containsSub rest sub

/-- Go strings.Contains. -/
def goContains (s sub : String) : Bool := containsSub s.toList sub.toList

/-- A Go float64 restricted to the values this program produces: either an
ordinary (rational-modelled) value or the IEEE NaN used as the unknown-price
sentinel. As in IEEE arithmetic, beq on nan is always false. -/
inductive GoFloat
  | nan
  | val (q : ℚ)
deriving Repr, DecidableEq

/-- IEEE float equality: NaN compares unequal to everything, itself included. -/
def GoFloat.beq : GoFloat → GoFloat → Bool
  | .nan, _ => false
  | _, .nan => false
  | .val a, .val b => a == b

/-- OnDemandPriceList: map from instance type to on-demand price
(pkg/pricing, type OnDemandPriceList map[string]float64). -/
abbrev OnDemandPriceList := List (String × ℚ)

/-- Go map read m[k] returning (value, ok) as an Option. -/
def lookupMap (m : OnDemandPriceList) (k : String) : Option ℚ :=
  (m.find? (fun p => p.1 == k)).map (fun p => p.2)

/-- lo.Assign(m1, m2): merged map in which keys of m2 override keys of m1;
with first-match lookup this is m2 in front of m1. -/
def loAssign (m1 m2 : OnDemandPriceList) : OnDemandPriceList := m2 ++ m1

/-- SpotPriceList: map from (instance type, availability zone) to spot price
(the two-level Go map map[string]map[string]float64, flattened to pair keys). -/
abbrev SpotPriceList := List ((String × String) × ℚ)

/-- Go nested-map assignment prices[it][az] = v: the new binding shadows any
earlier binding for the same key under first-match lookup. -/
def spotInsert (m : SpotPriceList) (k : String × String) (v : ℚ) : SpotPriceList :=
  (k, v) :: m

/-- Read of prices[it][az] returning (value, ok) as an Option. -/
def spotLookup (m : SpotPriceList) (it az : String) : Option ℚ :=
  (m.find? (fun p => p.1.1 == it && p.1.2 == az)).map (fun p => p.2)

/-- FargatePrice (pkg/pricing): the two per-unit hourly rates. -/
structure FargatePrice where
  VCPUPerHour : ℚ
  GBPerHour : ℚ
deriving Repr, DecidableEq

/-- One record of the spot price history feed after decoding
(ec2 SpotPriceHistory entry, aws_provider.go GetSpotPricing loop).
spotPrice is the result of strconv.ParseFloat on the price string
(none models a parse error); hasTimestamp models sph.Timestamp != nil. -/
structure SpotRecord where
  spotPrice : Option ℚ
  hasTimestamp : Bool
  instanceType : String
  az : String
deriving Repr, DecidableEq

/-- A spot record survives both skip checks of the GetSpotPricing loop. -/
def usableSpot (r : SpotRecord) : Bool := r.spotPrice.isSome && r.hasTimestamp

/-- The record loop of GetSpotPricing (aws_provider.go lines 100-118): parse
errors and missing timestamps are skipped, usable records are written into the
two-level map. -/
def processSpotRecords (prices : SpotPriceList) : List SpotRecord → SpotPriceList
  | [] => prices
  | r :: rest =>
    match r.spotPrice, r.hasTimestamp with
    | some price, true =>
        processSpotRecords (spotInsert prices (r.instanceType, r.az) price) rest
    | _, _ => processSpotRecords prices rest

/-- GetSpotPricing (aws_provider.go), over the concatenated records of all
pages: build the table, then fail when it is empty. -/
def getSpotPricing (recs : List SpotRecord) : Except String SpotPriceList :=
  let prices := processSpotRecords [] recs
  if prices.isEmpty then .error "no spot pricing found" else .ok prices

/-- GetOnDemandPricing (aws_provider.go lines 46-83) in terms of the results of
its two fetchOnDemandPricing sub-queries (shared-tenancy compute instances and
dedicated bare-metal instances), which are network-dependent and therefore
passed as arguments: propagate either error, fail when either sub-result is
empty, otherwise merge with lo.Assign. -/
def getOnDemandPricing (shared metal : Except String OnDemandPriceList) :
    Except String OnDemandPriceList :=
  match shared with
  | .error e => .error e
  | .ok onDemandPrices =>
    match metal with
    | .error e => .error e
    | .ok onDemandMetalPrices =>
      if onDemandPrices.isEmpty || onDemandMetalPrices.isEmpty then
        .error "no on-demand pricing found"
      else
        .ok (loAssign onDemandPrices onDemandMetalPrices)

/-- One decoded catalog record as projected by parseFargatePage
(aws_provider.go lines 259-276): the usage-type attribute and the flattened
list of price-dimension values across the OnDemand terms, each value being the
result of strconv.ParseFloat on the PricePerUnit.USD string (none = parse
error). -/
structure FargateItem where
  usageType : String
  priceDims : List (Option ℚ)
deriving Repr, DecidableEq

/-- The inner price-dimension loop of parseFargatePage (aws_provider.go lines
288-301): unparseable or zero prices are skipped; otherwise the usage-type
label selects which unit rate to set, and a label containing neither marker is
a fatal error for the fetch. -/
def parseFargateDims (name : String) (fp : FargatePrice) :
    List (Option ℚ) → Except String FargatePrice
  | [] => .ok fp
  | d :: rest =>
    match d with
    | none => parseFargateDims name fp rest
    | some price =>
      if price = 0 then parseFargateDims name fp rest
      else if goContains name "vCPU-Hours" then
        parseFargateDims name ⟨price, fp.GBPerHour⟩ rest
      else if goContains name "GB-Hours" then
        parseFargateDims name ⟨fp.VCPUPerHour, price⟩ rest
      else
        .error ("unsupported fargate price information found: " ++ name)

/-- parseFargatePage (aws_provider.go lines 254-305) over a page's decoded
records: records whose usage type does not contain "Fargate" are skipped,
relevant records feed the price-dimension loop, and its error aborts the page. -/
def parseFargatePage (fp : FargatePrice) : List FargateItem → Except String FargatePrice
  | [] => .ok fp
  | item :: rest =>
    if goContains item.usageType "Fargate" then
      match parseFargateDims item.usageType fp item.priceDims with
      | .error e => .error e
      | .ok fp2 => parseFargatePage fp2 rest
    else
      parseFargatePage fp rest

/-- GetFargatePricing (aws_provider.go lines 126-150) over the concatenated
decoded records of all pages, starting from the zero-valued FargatePrice.
There is no empty-result check in this fetch. -/
def getFargatePricing (items : List FargateItem) : Except String FargatePrice :=
  parseFargatePage ⟨0, 0⟩ items

/-- StaticProvider.GetSpotPricing returns a freshly made empty SpotPriceList
and no error. -/
def staticGetSpotPricing : Except String SpotPriceList := .ok []

/-- StaticProvider.GetFargatePricing returns the zero-valued FargatePrice and
no error. -/
def staticGetFargatePricing : Except String FargatePrice := .ok ⟨0, 0⟩

/-- Repository (repository.go lines 12-21): the three cached tables with their
per-category update timestamps. The mutex is not modelled; each update is
modelled as the atomic state transition it performs under the lock. -/
structure Repository where
  onDemandUpdateTime : ℕ
  onDemandPrices : OnDemandPriceList
  spotUpdateTime : ℕ
  spotPrices : SpotPriceList
  fargateUpdateTime : ℕ
  fargatePrice : FargatePrice
deriving Repr, DecidableEq

/-- NewRepository: all tables empty, timestamps zero. -/
def newRepository : Repository := ⟨0, [], 0, [], 0, ⟨0, 0⟩⟩

/-- UpdateOnDemandPricing (repository.go lines 29-39), in terms of the provider
fetch result and the clock value at the assignment: on a fetch error, return it
with the state untouched; on success, replace the on-demand table and stamp it. -/
def updateOnDemandPricing (fetch : Except String OnDemandPriceList) (now : ℕ)
    (pr : Repository) : Repository × Option String :=
  match fetch with
  | .error e => (pr, some e)
  | .ok pricing =>
      (⟨now, pricing, pr.spotUpdateTime, pr.spotPrices,
        pr.fargateUpdateTime, pr.fargatePrice⟩, none)

/-- UpdateSpotPricing (repository.go lines 41-51). -/
def updateSpotPricing (fetch : Except String SpotPriceList) (now : ℕ)
    (pr : Repository) : Repository × Option String :=
  match fetch with
  | .error e => (pr, some e)
  | .ok pricing =>
      (⟨pr.onDemandUpdateTime, pr.onDemandPrices, now, pricing,
        pr.fargateUpdateTime, pr.fargatePrice⟩, none)

/-- UpdateFargatePricing (repository.go lines 53-63). -/
def updateFargatePricing (fetch : Except String FargatePrice) (now : ℕ)
    (pr : Repository) : Repository × Option String :=
  match fetch with
  | .error e => (pr, some e)
  | .ok pricing =>
      (⟨pr.onDemandUpdateTime, pr.onDemandPrices, pr.spotUpdateTime,
        pr.spotPrices, now, pricing⟩, none)

/-- The three per-category provider fetch results consumed by one
UpdatePricing call. -/
structure FetchResults where
  onDemand : Except String OnDemandPriceList
  spot : Except String SpotPriceList
  fargate : Except String FargatePrice

/-- multierr.Combine: nil for an empty error list, one combined non-nil error
otherwise. -/
def multierrCombine : List String → Option String
  | [] => none
  | e :: rest => some (String.intercalate "; " (e :: rest))

/-- UpdatePricing (repository.go lines 65-100). The Go code launches the three
category refreshes as goroutines tracked by a sync.WaitGroup but never calls
wg.Wait(), so the main goroutine reaches the final len(errs) check without
joining them: which workers have already appended their error when errs is
read depends on the scheduler. The argument finished records, for each of the
three goroutines in launch order, whether it completed before the check; every
value of finished is a legal schedule precisely because no wait happens. The
returned state is the repository once all three goroutines have eventually
run (each touches only its own category, so the order does not matter), and
the returned error is multierr.Combine of the errors visible at the check. -/
def updatePricing (res : FetchResults) (nowOD nowSpot nowF : ℕ)
    (finished : Fin 3 → Bool) (pr : Repository) : Repository × Option String :=
  let odOut := updateOnDemandPricing res.onDemand nowOD pr
  let spotOut := updateSpotPricing res.spot nowSpot odOut.1
  let fOut := updateFargatePricing res.fargate nowF spotOut.1
  let errs :=
    (if finished 0 then odOut.2.toList else []) ++
    (if finished 1 then spotOut.2.toList else []) ++
    (if finished 2 then fOut.2.toList else [])
  (fOut.1, multierrCombine errs)

/-- Repository.OnDemandPrice (repository.go lines 132-140): (price, true) when
the instance type is in the table, (0, false) otherwise. -/
def Repository.OnDemandPrice (pr : Repository) (instanceType : String) : ℚ × Bool :=
  match lookupMap pr.onDemandPrices instanceType with
  | none => (0, false)
  | some price => (price, true)

/-- Repository.SpotPrice (repository.go lines 153-163): (price, true) when the
(instance type, zone) pair is in the table, (0, false) otherwise. -/
def Repository.SpotPrice (pr : Repository) (instanceType zone : String) : ℚ × Bool :=
  match spotLookup pr.spotPrices instanceType zone with
  | none => (0, false)
  | some price => (price, true)

/-- Repository.FargatePrice (repository.go lines 142-149): (0, false) when
either cached unit rate is exactly zero (the unset sentinel), otherwise the
linear combination of the node shape with the unit rates. -/
def Repository.FargatePrice (pr : Repository) (cpu memory : ℚ) : ℚ × Bool :=
  if pr.fargatePrice.GBPerHour = 0 ∨ pr.fargatePrice.VCPUPerHour = 0 then (0, false)
  else (cpu * pr.fargatePrice.VCPUPerHour + memory * pr.fargatePrice.GBPerHour, true)

/-- A pod as the node model uses it: only its optional Fargate provisioned
(vCPU, memory GB) shape matters here (Pod.FargateCapacityProvisioned). -/
structure Pod where
  fargateCapacityProvisioned : Option (ℚ × ℚ)
deriving Repr, DecidableEq

/-- A node of pkg/model: its Kubernetes label map, its bound pods, and its
Price field. -/
structure Node where
  labels : List (String × String)
  pods : List Pod
  price : GoFloat
deriving Repr, DecidableEq

/-- Go map read n.node.Labels[k]: a missing key yields the empty string. -/
def lookupLabel (ls : List (String × String)) (k : String) : String :=
  match ls.find? (fun p => p.1 == k) with
  | some p => p.2
  | none => ""

/-- Node.IsOnDemand (model, part_001 lines 286-289). -/
def Node.isOnDemand (n : Node) : Bool :=
  lookupLabel n.labels "karpenter.sh/capacity-type" == "on-demand" ||
  lookupLabel n.labels "eks.amazonaws.com/capacityType" == "ON_DEMAND"

/-- Node.IsSpot (model, part_001 lines 291-294). -/
def Node.isSpot (n : Node) : Bool :=
  lookupLabel n.labels "karpenter.sh/capacity-type" == "spot" ||
  lookupLabel n.labels "eks.amazonaws.com/capacityType" == "SPOT"

/-- Node.IsFargate (model, part_001 lines 296-298). -/
def Node.isFargate (n : Node) : Bool :=
  lookupLabel n.labels "eks.amazonaws.com/compute-type" == "fargate"

/-- NodeCapacityType (model): unknown is the empty-string capacity type. -/
inductive NodeCapacityType
  | unknown
  | onDemand
  | spot
  | fargate
deriving Repr, DecidableEq

/-- Node.CapacityType (model, part_001 lines 300-310): on-demand is tested
first, then spot, then fargate, otherwise unknown. -/
def Node.capacityType (n : Node) : NodeCapacityType :=
  if n.isOnDemand then .onDemand
  else if n.isSpot then .spot
  else if n.isFargate then .fargate
  else .unknown

/-- Node.Zone: the topology.kubernetes.io/zone label (v1.LabelTopologyZone). -/
def Node.zone (n : Node) : String :=
  lookupLabel n.labels "topology.kubernetes.io/zone"

/-- Node.InstanceType (model, part_001 lines 412-425): a Fargate node hosting
exactly one pod with a provisioned shape formats that shape (Go prints it with
fmt.Sprintf %g; rational toString stands in for %g here), any other Fargate
node is "Fargate", and otherwise the node.kubernetes.io/instance-type label
(v1.LabelInstanceTypeStable) is used. -/
def Node.instanceType (n : Node) : String :=
  if n.isFargate then
    match n.pods with
    | [p] =>
      match p.fargateCapacityProvisioned with
      | some (cpu, mem) => toString cpu ++ "vCPU-" ++ toString mem ++ "GB"
      | none => "Fargate"
    | _ => "Fargate"
  else lookupLabel n.labels "node.kubernetes.io/instance-type"

/-- Node.UpdatePrice (model, part_001 lines 482-501): start from the NaN
sentinel, then overwrite it only when the branch for the node's capacity class
finds a price in the repository. The function is total: no branch can fail. -/
def Node.updatePrice (pr : Repository) (n : Node) : Node :=
  let price : GoFloat :=
    if n.isOnDemand then
      match pr.OnDemandPrice n.instanceType with
      | (p, true) => .val p
      | (_, false) => .nan
    else if n.isSpot then
      match pr.SpotPrice n.instanceType n.zone with
      | (p, true) => .val p
      | (_, false) => .nan
    else if n.isFargate && n.pods.length == 1 then
      match n.pods with
      | [p] =>
        match p.fargateCapacityProvisioned with
        | some (cpu, mem) =>
          match pr.FargatePrice cpu mem with
          | (q, true) => .val q
          | (_, false) => .nan
        | none => .nan
      | _ => .nan
    else .nan
  ⟨n.labels, n.pods, price⟩

/-- Node.HasPrice (model, part_001 lines 477-480): the price is known exactly
when it compares equal to itself, which the NaN sentinel never does. -/
def Node.hasPrice (n : Node) : Bool := GoFloat.beq n.price n.price

/-- C1 (code bug): UpdatePricing launches its three refresh goroutines under a
sync.WaitGroup but never calls wg.Wait(), so the len(errs) check does not wait
for the refreshes to finish. In the schedule where the main goroutine reaches
the check before any worker completes (always permitted, since nothing joins
them), a failing spot fetch produces a nil combined error, contradicting the
claim that the call waits for all three refreshes and reports every failure.
Only under the lucky schedule where all three workers finished first does the
call return the combined error the claim describes. The succeeding categories
are still (eventually) updated and the failing category keeps its old state. -/
theorem c1_updatePricing_checks_errors_without_waiting :
    (updatePricing ⟨.ok [("m5.large", 5)], .error "spot fetch failed", .ok ⟨1, 2⟩⟩
        7 7 7 (fun _ => false) newRepository).2 = none ∧
    (updatePricing ⟨.ok [("m5.large", 5)], .error "spot fetch failed", .ok ⟨1, 2⟩⟩
        7 7 7 (fun _ => false) newRepository).1 =
      ⟨7, [("m5.large", 5)], 0, [], 7, ⟨1, 2⟩⟩ ∧
    (updatePricing ⟨.ok [("m5.large", 5)], .error "spot fetch failed", .ok ⟨1, 2⟩⟩
        7 7 7 (fun _ => true) newRepository).2 = some "spot fetch failed" := by
  refine ⟨rfl, rfl, ?_⟩
  decide

/-- C2: every per-category refresh whose provider fetch fails returns exactly
that error and leaves the repository state — all three tables and all three
timestamps — completely unchanged. -/
theorem c2_refresh_failure_leaves_repository_unchanged (pr : Repository)
    (e : String) (now : ℕ) :
    updateOnDemandPricing (.error e) now pr = (pr, some e) ∧
    updateSpotPricing (.error e) now pr = (pr, some e) ∧
    updateFargatePricing (.error e) now pr = (pr, some e) :=
  ⟨rfl, rfl, rfl⟩

/-- C3 (counterexample): a Fargate fetch that completes with zero usable
records — here one page whose only record is not Fargate-relevant — returns
the zero-valued FargatePrice with no error, so the empty-result-is-an-error
policy does not apply to the serverless fetch. -/
theorem c3_fargate_fetch_empty_result_is_not_an_error :
    getFargatePricing [⟨"EC2-BoxUsage", [some 3]⟩] = .ok ⟨0, 0⟩ := rfl

/-- C3 (amended): the empty-result-is-an-error policy holds for the on-demand
fetch (either sub-query yielding zero entries fails the whole fetch) and for
the spot fetch (zero usable records fail it), but the Fargate fetch has no
such check and returns the zero-valued unit price without error. -/
theorem c3_empty_result_policy_scope
    (shared metal : OnDemandPriceList) (recs : List SpotRecord)
    (hod : shared = [] ∨ metal = [])
    (hspot : processSpotRecords [] recs = []) :
    getOnDemandPricing (.ok shared) (.ok metal) = .error "no on-demand pricing found" ∧
    getSpotPricing recs = .error "no spot pricing found" ∧
    getFargatePricing [] = .ok ⟨0, 0⟩ := by
  refine ⟨?_, ?_, rfl⟩
  · unfold getOnDemandPricing
    rcases hod with h | h <;> simp [h]
  · unfold getSpotPricing
    simp [hspot]

/-- C3 witness: the amended policy at concrete inputs — an empty shared-tenancy
sub-result fails the on-demand fetch, an empty record list fails the spot
fetch, and the empty Fargate fetch succeeds. -/
theorem c3_empty_result_policy_scope_witness :
    getOnDemandPricing (.ok []) (.ok [("m5.metal", 5)]) =
      .error "no on-demand pricing found" ∧
    getSpotPricing [] = .error "no spot pricing found" ∧
    getFargatePricing [] = .ok ⟨0, 0⟩ :=
  c3_empty_result_policy_scope [] [("m5.metal", 5)] [] (Or.inl rfl) rfl

/-- C4 (counterexample): refreshing spot pricing through the static provider
succeeds (nil error, timestamp updated) yet installs an empty spot table, so a
successful refresh does not always produce a non-empty table. -/
theorem c4_static_spot_refresh_succeeds_with_empty_table :
    (updateSpotPricing staticGetSpotPricing 5 newRepository).2 = none ∧
    (updateSpotPricing staticGetSpotPricing 5 newRepository).1.spotPrices = [] ∧
    (updateSpotPricing staticGetSpotPricing 5 newRepository).1.spotUpdateTime = 5 :=
  ⟨rfl, rfl, rfl⟩

/-- C4 (amended): every successful refresh stamps its category with the
current clock value — strictly newer than the previous stamp whenever the
clock has advanced — and installs exactly the fetched table; the AWS
provider's on-demand and spot fetches never return an empty table (they fail
instead), but the static provider's spot refresh can succeed with an empty
one. -/
theorem c4_successful_refresh_timestamps_and_tables (pr : Repository)
    (odT : OnDemandPriceList) (spotT : SpotPriceList) (fT : FargatePrice) (now : ℕ)
    (hod : pr.onDemandUpdateTime < now) (hspot : pr.spotUpdateTime < now)
    (hf : pr.fargateUpdateTime < now) :
    ((updateOnDemandPricing (.ok odT) now pr).1.onDemandUpdateTime = now ∧
      pr.onDemandUpdateTime <
        (updateOnDemandPricing (.ok odT) now pr).1.onDemandUpdateTime ∧
      (updateOnDemandPricing (.ok odT) now pr).1.onDemandPrices = odT) ∧
    ((updateSpotPricing (.ok spotT) now pr).1.spotUpdateTime = now ∧
      pr.spotUpdateTime < (updateSpotPricing (.ok spotT) now pr).1.spotUpdateTime ∧
      (updateSpotPricing (.ok spotT) now pr).1.spotPrices = spotT) ∧
    ((updateFargatePricing (.ok fT) now pr).1.fargateUpdateTime = now ∧
      pr.fargateUpdateTime <
        (updateFargatePricing (.ok fT) now pr).1.fargateUpdateTime ∧
      (updateFargatePricing (.ok fT) now pr).1.fargatePrice = fT) ∧
    (∀ sh me tbl, getOnDemandPricing (.ok sh) (.ok me) = .ok tbl → tbl ≠ []) ∧
    (∀ recs tbl, getSpotPricing recs = .ok tbl → tbl ≠ []) := by
  refine ⟨⟨rfl, hod, rfl⟩, ⟨rfl, hspot, rfl⟩, ⟨rfl, hf, rfl⟩, ?_, ?_⟩
  · intro sh me tbl htbl
    unfold getOnDemandPricing at htbl
    by_cases hs : sh.isEmpty
    · simp [hs] at htbl
    · by_cases hm : me.isEmpty
      · simp [hm] at htbl
      · simp [hs, hm, loAssign] at htbl
        subst htbl
        intro hnil
        rw [List.append_eq_nil] at hnil
        rw [hnil.1] at hm
        simp at hm
  · intro recs tbl htbl
    unfold getSpotPricing at htbl
    by_cases hp : (processSpotRecords [] recs).isEmpty
    · simp [hp] at htbl
    · simp [hp] at htbl
      subst htbl
      intro hnil
      rw [hnil] at hp
      simp at hp

/-- C4 witness: concrete successful refreshes from the empty repository at
clock 3 stamp each category with 3 and install the fetched tables, and the
AWS emptiness guarantees hold. -/
theorem c4_successful_refresh_timestamps_and_tables_witness :
    ((updateOnDemandPricing (.ok [("m5.large", 5)]) 3 newRepository).1.onDemandUpdateTime = 3 ∧
      newRepository.onDemandUpdateTime <
        (updateOnDemandPricing (.ok [("m5.large", 5)]) 3 newRepository).1.onDemandUpdateTime ∧
      (updateOnDemandPricing (.ok [("m5.large", 5)]) 3 newRepository).1.onDemandPrices =
        [("m5.large", 5)]) ∧
    ((updateSpotPricing (.ok [(("m5.large", "us-east-1a"), 2)]) 3 newRepository).1.spotUpdateTime = 3 ∧
      newRepository.spotUpdateTime <
        (updateSpotPricing (.ok [(("m5.large", "us-east-1a"), 2)]) 3 newRepository).1.spotUpdateTime ∧
      (updateSpotPricing (.ok [(("m5.large", "us-east-1a"), 2)]) 3 newRepository).1.spotPrices =
        [(("m5.large", "us-east-1a"), 2)]) ∧
    ((updateFargatePricing (.ok ⟨1, 2⟩) 3 newRepository).1.fargateUpdateTime = 3 ∧
      newRepository.fargateUpdateTime <
        (updateFargatePricing (.ok ⟨1, 2⟩) 3 newRepository).1.fargateUpdateTime ∧
      (updateFargatePricing (.ok ⟨1, 2⟩) 3 newRepository).1.fargatePrice = ⟨1, 2⟩) ∧
    (∀ sh me tbl, getOnDemandPricing (.ok sh) (.ok me) = .ok tbl → tbl ≠ []) ∧
    (∀ recs tbl, getSpotPricing recs = .ok tbl → tbl ≠ []) :=
  c4_successful_refresh_timestamps_and_tables newRepository [("m5.large", 5)]
    [(("m5.large", "us-east-1a"), 2)] ⟨1, 2⟩ 3
    (by decide) (by decide) (by decide)

/-- C5: Node.CapacityType tests the on-demand indicators first, so any label
set carrying an on-demand indicator from either labeling scheme classifies as
on-demand even when a spot indicator from the other scheme is present, and a
label set matching none of the indicators classifies as unknown. -/
theorem c5_classifier_on_demand_wins (n : Node) :
    ((lookupLabel n.labels "karpenter.sh/capacity-type" = "on-demand" ∨
      lookupLabel n.labels "eks.amazonaws.com/capacityType" = "ON_DEMAND") →
      n.capacityType = .onDemand) ∧
    ((lookupLabel n.labels "karpenter.sh/capacity-type" ≠ "on-demand" ∧
      lookupLabel n.labels "eks.amazonaws.com/capacityType" ≠ "ON_DEMAND" ∧
      lookupLabel n.labels "karpenter.sh/capacity-type" ≠ "spot" ∧
      lookupLabel n.labels "eks.amazonaws.com/capacityType" ≠ "SPOT" ∧
      lookupLabel n.labels "eks.amazonaws.com/compute-type" ≠ "fargate") →
      n.capacityType = .unknown) := by
  constructor
  · intro h
    unfold Node.capacityType Node.isOnDemand
    rcases h with h | h <;> simp [h]
  · rintro ⟨h1, h2, h3, h4, h5⟩
    unfold Node.capacityType Node.isOnDemand Node.isSpot Node.isFargate
    simp [h1, h2, h3, h4, h5]

/-- C5 witness: a node labeled on-demand under the karpenter scheme and SPOT
under the eks scheme classifies as on-demand, and a node with unrelated labels
classifies as unknown. -/
theorem c5_classifier_on_demand_wins_witness :
    Node.capacityType ⟨[("karpenter.sh/capacity-type", "on-demand"),
      ("eks.amazonaws.com/capacityType", "SPOT")], [], .nan⟩ = .onDemand ∧
    Node.capacityType ⟨[("kubernetes.io/os", "linux")], [], .nan⟩ = .unknown :=
  ⟨(c5_classifier_on_demand_wins ⟨[("karpenter.sh/capacity-type", "on-demand"),
      ("eks.amazonaws.com/capacityType", "SPOT")], [], .nan⟩).1 (Or.inl rfl),
   (c5_classifier_on_demand_wins ⟨[("kubernetes.io/os", "linux")], [], .nan⟩).2
      (by refine ⟨?_, ?_, ?_, ?_, ?_⟩ <;> decide)⟩

/-- C6: UpdatePrice leaves the NaN sentinel — which fails equality with
itself, making HasPrice false — in place for every node classified unknown,
and for every fargate-classified node that does not host exactly one pod with
an available provisioned shape; the function is total, so it never fails. -/
theorem c6_unknown_price_sentinel (pr : Repository) (n : Node) :
    (n.capacityType = .unknown →
      (Node.updatePrice pr n).price = .nan ∧ (Node.updatePrice pr n).hasPrice = false) ∧
    (n.capacityType = .fargate →
      (¬ ∃ p cpu mem, n.pods = [p] ∧ p.fargateCapacityProvisioned = some (cpu, mem)) →
      (Node.updatePrice pr n).price = .nan ∧ (Node.updatePrice pr n).hasPrice = false) := by
  constructor
  · intro h
    by_cases hod : n.isOnDemand
    · simp [Node.capacityType, hod] at h
    · by_cases hsp : n.isSpot
      · simp [Node.capacityType, hod, hsp] at h
      · by_cases hfg : n.isFargate
        · simp [Node.capacityType, hod, hsp, hfg] at h
        · have hprice : (Node.updatePrice pr n).price = .nan := by
            simp [Node.updatePrice, hod, hsp, hfg]
          exact ⟨hprice, by simp [Node.hasPrice, hprice, GoFloat.beq]⟩
  · intro h hno
    have hod : ¬ n.isOnDemand := by
      intro hb; simp [Node.capacityType, hb] at h
    have hsp : ¬ n.isSpot := by
      intro hb; simp [Node.capacityType, hod, hb] at h
    have hprice : (Node.updatePrice pr n).price = .nan := by
      cases hpods : n.pods with
      | nil => simp [Node.updatePrice, hod, hsp, hpods]
      | cons p ptail =>
        cases ptail with
        | nil =>
          cases hshape : p.fargateCapacityProvisioned with
          | none => simp [Node.updatePrice, hod, hsp, hpods, hshape]
          | some shape =>
            exact absurd ⟨p, shape.1, shape.2, hpods, by simpa using hshape⟩ hno
        | cons p2 rest2 => simp [Node.updatePrice, hod, hsp, hpods]
    exact ⟨hprice, by simp [Node.hasPrice, hprice, GoFloat.beq]⟩

/-- C6 witness: an unlabeled node keeps the sentinel, and a fargate node
hosting two pods keeps the sentinel, even with a fully loaded repository. -/
theorem c6_unknown_price_sentinel_witness :
    (Node.updatePrice ⟨1, [("m5.large", 5)], 1, [(("m5.large", "a"), 2)], 1, ⟨1, 2⟩⟩
        ⟨[("kubernetes.io/os", "linux")], [], .val 3⟩).hasPrice = false ∧
    (Node.updatePrice ⟨1, [("m5.large", 5)], 1, [(("m5.large", "a"), 2)], 1, ⟨1, 2⟩⟩
        ⟨[("eks.amazonaws.com/compute-type", "fargate")],
          [⟨some (1, 2)⟩, ⟨some (1, 2)⟩], .val 3⟩).hasPrice = false :=
  ⟨((c6_unknown_price_sentinel ⟨1, [("m5.large", 5)], 1, [(("m5.large", "a"), 2)], 1, ⟨1, 2⟩⟩
      ⟨[("kubernetes.io/os", "linux")], [], .val 3⟩).1 (by decide)).2,
   ((c6_unknown_price_sentinel ⟨1, [("m5.large", 5)], 1, [(("m5.large", "a"), 2)], 1, ⟨1, 2⟩⟩
      ⟨[("eks.amazonaws.com/compute-type", "fargate")],
        [⟨some (1, 2)⟩, ⟨some (1, 2)⟩], .val 3⟩).2 (by decide)
      (by rintro ⟨p, cpu, mem, hpods, hshape⟩; simp at hpods)).2⟩

/-- C7: Repository.FargatePrice returns (0, false) exactly when either cached
unit rate is zero, and otherwise the linear combination of the node shape with
the unit rates, flagged true. -/
theorem c7_fargate_price_formula (pr : Repository) (cpu memory : ℚ) :
    ((pr.fargatePrice.VCPUPerHour = 0 ∨ pr.fargatePrice.GBPerHour = 0) →
      pr.FargatePrice cpu memory = (0, false)) ∧
    (pr.fargatePrice.VCPUPerHour ≠ 0 → pr.fargatePrice.GBPerHour ≠ 0 →
      pr.FargatePrice cpu memory =
        (cpu * pr.fargatePrice.VCPUPerHour + memory * pr.fargatePrice.GBPerHour,
          true)) := by
  constructor
  · intro h
    unfold Repository.FargatePrice
    rcases h with h | h <;> simp [h]
  · intro h1 h2
    unfold Repository.FargatePrice
    simp [h1, h2]

/-- C7 witness: with unit rates (0.04048, 0.004445) and node shape
(0.5, 1.0) the resolved price is 0.024685, and with a zero memory rate the
lookup reports not found. -/
theorem c7_fargate_price_formula_witness :
    Repository.FargatePrice ⟨0, [], 0, [], 0, ⟨4048/100000, 4445/1000000⟩⟩
      (1/2) 1 = (24685/1000000, true) ∧
    Repository.FargatePrice ⟨0, [], 0, [], 0, ⟨4048/100000, 0⟩⟩ (1/2) 1 =
      (0, false) := by
  constructor
  · have h := (c7_fargate_price_formula ⟨0, [], 0, [], 0, ⟨4048/100000, 4445/1000000⟩⟩
        (1/2) 1).2
      (show (4048/100000 : ℚ) ≠ 0 by norm_num)
      (show (4445/1000000 : ℚ) ≠ 0 by norm_num)
    rw [h]
    norm_num
  · exact (c7_fargate_price_formula ⟨0, [], 0, [], 0, ⟨4048/100000, 0⟩⟩ (1/2) 1).1
      (Or.inr rfl)

/-- The price-dimension loop errors as soon as it reaches a nonzero parseable
price whose usage-type label carries neither unit marker, and some such price
is in the list. -/
theorem parseFargateDims_error_of_no_marker (name : String) (q : ℚ)
    (hq : q ≠ 0) (hv : goContains name "vCPU-Hours" = false)
    (hg : goContains name "GB-Hours" = false) :
    ∀ dims, some q ∈ dims → ∀ fp,
      ∃ msg, parseFargateDims name fp dims = .error msg := by
  intro dims
  induction dims with
  | nil => intro h fp; cases h
  | cons d rest ih =>
    intro hmem fp
    rcases List.mem_cons.mp hmem with heq | htail
    · rw [← heq]
      exact ⟨"unsupported fargate price information found: " ++ name,
        by simp [parseFargateDims, hq, hv, hg]⟩
    · cases d with
      | none => simpa [parseFargateDims] using ih htail fp
      | some p =>
        by_cases hp : p = 0
        · subst hp
          simpa [parseFargateDims] using ih htail fp
        · exact ⟨"unsupported fargate price information found: " ++ name,
            by simp [parseFargateDims, hp, hv, hg]⟩

/-- C8: any Fargate-relevant record carrying a nonzero parseable price
dimension whose usage-type label contains neither the vCPU-Hours nor the
GB-Hours marker makes the whole parse of the page list fail with an error; it
is never skipped. -/
theorem c8_unrecognized_fargate_usage_type_is_fatal (items : List FargateItem)
    (item : FargateItem) (q : ℚ)
    (hmem : item ∈ items)
    (hrel : goContains item.usageType "Fargate" = true)
    (hdim : some q ∈ item.priceDims) (hq : q ≠ 0)
    (hv : goContains item.usageType "vCPU-Hours" = false)
    (hg : goContains item.usageType "GB-Hours" = false) :
    ∀ fp, ∃ msg, parseFargatePage fp items = .error msg := by
  induction items with
  | nil => cases hmem
  | cons hd rest ih =>
    intro fp
    rcases List.mem_cons.mp hmem with heq | htail
    · subst heq
      obtain ⟨msg, hmsg⟩ := parseFargateDims_error_of_no_marker item.usageType q
        hq hv hg item.priceDims hdim fp
      exact ⟨msg, by simp [parseFargatePage, hrel, hmsg]⟩
    · by_cases hF : goContains hd.usageType "Fargate" = true
      · cases hdd : parseFargateDims hd.usageType fp hd.priceDims with
        | error e => exact ⟨e, by simp [parseFargatePage, hF, hdd]⟩
        | ok fp2 =>
          obtain ⟨msg, hmsg⟩ := ih htail fp2
          exact ⟨msg, by simp [parseFargatePage, hF, hdd, hmsg]⟩
      · obtain ⟨msg, hmsg⟩ := ih htail fp
        exact ⟨msg, by simp [parseFargatePage, hF, hmsg]⟩

/-- C8 witness: a relevant record priced 3 under the unrecognized usage type
Fargate-Storage-Hours makes the parse fail. -/
theorem c8_unrecognized_fargate_usage_type_is_fatal_witness :
    ∃ msg, parseFargatePage ⟨0, 0⟩ [⟨"Fargate-Storage-Hours", [some 3]⟩] =
      .error msg :=
  c8_unrecognized_fargate_usage_type_is_fatal
    [⟨"Fargate-Storage-Hours", [some 3]⟩] ⟨"Fargate-Storage-Hours", [some 3]⟩ 3
    (by decide) (by decide) (by decide) (by decide) (by decide) (by decide) ⟨0, 0⟩

/-- Records skipped by the spot loop (unparseable price or missing timestamp)
leave the table exactly as if they were absent from the feed. -/
theorem processSpotRecords_eq_filter (recs : List SpotRecord) :
    ∀ acc, processSpotRecords acc recs =
      processSpotRecords acc (recs.filter usableSpot) := by
  induction recs with
  | nil => intro acc; rfl
  | cons r rest ih =>
    intro acc
    cases hp : r.spotPrice with
    | none =>
      have hu : usableSpot r = false := by simp [usableSpot, hp]
      simp [processSpotRecords, hp, List.filter_cons, hu, ih acc]
    | some p =>
      cases ht : r.hasTimestamp with
      | false =>
        have hu : usableSpot r = false := by simp [usableSpot, hp, ht]
        simp [processSpotRecords, hp, ht, List.filter_cons, hu, ih acc]
      | true =>
        have hu : usableSpot r = true := by simp [usableSpot, hp, ht]
        simp [processSpotRecords, hp, ht, List.filter_cons, hu,
          ih (spotInsert acc (r.instanceType, r.az) p)]

/-- The table built by the spot loop resolves each (instance type, zone) key
to the price of the last usable record for that key, falling back to the
starting table when no usable record matches. -/
theorem spotLookup_processSpotRecords (it az : String) (recs : List SpotRecord) :
    ∀ acc, spotLookup (processSpotRecords acc recs) it az =
      (match (recs.filter usableSpot).reverse.find?
          (fun r => r.instanceType == it && r.az == az) with
        | some r => r.spotPrice
        | none => spotLookup acc it az) := by
  induction recs with
  | nil => intro acc; rfl
  | cons r rest ih =>
    intro acc
    cases hp : r.spotPrice with
    | none =>
      have hu : usableSpot r = false := by simp [usableSpot, hp]
      simp [processSpotRecords, hp, List.filter_cons, hu, ih acc]
    | some p =>
      cases ht : r.hasTimestamp with
      | false =>
        have hu : usableSpot r = false := by simp [usableSpot, hp, ht]
        simp [processSpotRecords, hp, ht, List.filter_cons, hu, ih acc]
      | true =>
        have hu : usableSpot r = true := by simp [usableSpot, hp, ht]
        have hstep : processSpotRecords acc (r :: rest) =
            processSpotRecords (spotInsert acc (r.instanceType, r.az) p) rest := by
          simp [processSpotRecords, hp, ht]
        rw [hstep, ih (spotInsert acc (r.instanceType, r.az) p),
          List.filter_cons]
        rw [if_pos hu, List.reverse_cons, List.find?_append]
        cases hfind : (rest.filter usableSpot).reverse.find?
            (fun x => x.instanceType == it && x.az == az) with
        | some r2 => simp [hfind, Option.or]
        | none =>
          cases hpred : (r.instanceType == it && r.az == az) with
          | true =>
            simp [hfind, Option.or, List.find?_cons, hpred, spotLookup,
              spotInsert, hp]
          | false =>
            simp [hfind, Option.or, List.find?_cons, hpred, spotLookup,
              spotInsert]

/-- C9: spot records with an unparseable price or a missing timestamp are
skipped without affecting the fetch result at all, and the table maps each
(instance type, zone) key to the price of the last usable record for that key
in iteration order. -/
theorem c9_spot_malformed_skipped_and_last_record_wins (recs : List SpotRecord) :
    getSpotPricing recs = getSpotPricing (recs.filter usableSpot) ∧
    ∀ it az, spotLookup (processSpotRecords [] recs) it az =
      Option.bind ((recs.filter usableSpot).reverse.find?
        (fun r => r.instanceType == it && r.az == az))
        (fun r => r.spotPrice) := by
  constructor
  · simp only [getSpotPricing]
    rw [processSpotRecords_eq_filter recs []]
  · intro it az
    rw [spotLookup_processSpotRecords it az recs []]
    cases hfind : (recs.filter usableSpot).reverse.find?
        (fun r => r.instanceType == it && r.az == az) with
    | some r2 => rfl
    | none => rfl

/-- If every price dimension of a record is unparseable or zero, the
price-dimension loop returns the incoming rates unchanged and cannot error. -/
theorem parseFargateDims_skips_zero_and_malformed (name : String) :
    ∀ dims, (∀ d ∈ dims, d = none ∨ d = some 0) →
      ∀ fp, parseFargateDims name fp dims = .ok fp := by
  intro dims
  induction dims with
  | nil => intro _ fp; rfl
  | cons d rest ih =>
    intro hall fp
    have hrest : ∀ x ∈ rest, x = none ∨ x = some 0 :=
      fun x hx => hall x (List.mem_cons_of_mem d hx)
    rcases hall d (List.mem_cons_self d rest) with h | h <;> subst h
    · simpa [parseFargateDims] using ih hrest fp
    · simpa [parseFargateDims] using ih hrest fp

/-- C10: a Fargate-relevant record all of whose price dimensions are
unparseable or exactly zero is skipped silently — the parse proceeds exactly
as if the record were absent — so such a record can never reach the
unsupported-usage-type error, whatever its usage-type label says. -/
theorem c10_zero_or_malformed_price_never_triggers_schema_error
    (fp : FargatePrice) (rest : List FargateItem) (item : FargateItem)
    (hrel : goContains item.usageType "Fargate" = true)
    (hdims : ∀ d ∈ item.priceDims, d = none ∨ d = some 0) :
    parseFargatePage fp (item :: rest) = parseFargatePage fp rest := by
  simp [parseFargatePage, hrel,
    parseFargateDims_skips_zero_and_malformed item.usageType item.priceDims
      hdims fp]

/-- C10 witness: a relevant record with the unrecognized usage type
Fargate-Ephemeral-Storage but only a malformed and a zero price dimension is
skipped and the parse succeeds with the rates unchanged. -/
theorem c10_zero_or_malformed_price_never_triggers_schema_error_witness :
    parseFargatePage ⟨0, 0⟩ [⟨"Fargate-Ephemeral-Storage", [none, some 0]⟩] =
      .ok ⟨0, 0⟩ :=
  (c10_zero_or_malformed_price_never_triggers_schema_error ⟨0, 0⟩ []
    ⟨"Fargate-Ephemeral-Storage", [none, some 0]⟩
    (by decide) (by decide)).trans rfl

end EksPricing
